import Mathlib

/-!
Shallow embedding of the trading-session and position-lifecycle engine of the
autoprint backend: the trade-execution guard, entry and exit execution
(`TradingService`), the session supervisor and fund ledger (`BotService`,
`DepositService`), the position monitor's exit-condition evaluation, and the
escalating-tolerance exit-retry loop.

Money and prices are modelled as exact rationals (`ℚ`); timestamps are
rationals counting milliseconds.  JavaScript truthiness tests (`!x`,
`x || d`) on numbers are modelled explicitly: `0` and a missing value are
both falsy.
-/

namespace AutoPrint

/-- Trade direction, `'BUY' | 'SELL'` in the source. -/
inductive Action
  | BUY
  | SELL
  deriving DecidableEq, Repr

/-- Position status, `'OPEN' | 'CLOSED'` in the source. -/
inductive PosStatus
  | OPEN
  | CLOSED
  deriving DecidableEq, Repr

/-- Session lifecycle state (`BotSession.status` in `bot.service.ts`). -/
inductive SessionStatus
  | PENDING_DEPOSIT
  | RUNNING
  | STOPPED
  | COMPLETED
  | FAILED
  deriving DecidableEq, Repr

/-- Computable form of `Math.floor` on an exact rational, in computable form
(`q.num / q.den` with Euclidean integer division equals `⌊q⌋`). -/
def jsFloor (q : ℚ) : ℤ := q.num / q.den

/-- The function `jsFloor` agrees with the mathematical floor. -/
theorem jsFloor_eq_floor (q : ℚ) : jsFloor q = ⌊q⌋ := Rat.floor_def.symm

/-- JS truthiness of an optional number: `undefined` and `0` are falsy. -/
def jsTruthyQ : Option ℚ → Bool
  | none => false
  | some x => x ≠ 0

/-- JS `x || d` on an optional rational: default when missing or zero. -/
def jsQOr (x : Option ℚ) (d : ℚ) : ℚ :=
  match x with
  | none => d
  | some v => if v = 0 then d else v

/-- JS `x || d` on an optional natural (used for token decimals). -/
def jsNatOr (x : Option ℕ) (d : ℕ) : ℕ :=
  match x with
  | none => d
  | some v => if v = 0 then d else v

/-- Record `Position` from `bot.service.ts` (financial and lifecycle fields). -/
structure Position where
  id : String
  token : String
  action : Action
  entryPrice : ℚ
  amount : ℚ
  solSpent : ℚ
  takeProfitPrice : ℚ
  stopLossPrice : ℚ
  status : PosStatus
  createdAt : ℚ
  autoExitTime : ℚ
  deriving DecidableEq, Repr

/-- Record `BotSession` from `bot.service.ts`. -/
structure BotSession where
  sessionId : String
  walletPublicKey : String
  allocatedSol : ℚ
  remainingSol : ℚ
  tradesExecuted : ℕ
  maxTrades : ℕ
  status : SessionStatus
  startedAt : ℚ
  positions : List Position
  deriving DecidableEq, Repr

/-- Ledger entry `UserDeposit` from `deposit.service.ts`. -/
structure UserDeposit where
  userId : String
  userWalletAddress : String
  depositedSol : ℚ
  availableSol : ℚ
  totalTrades : ℕ
  deriving DecidableEq, Repr

/-- Observable calls made to the order-execution collaborators
(`TriggerService.createOrder`, `WalletSigningService.signTransaction`,
`TriggerService.executeSignedTransaction`).  `makingAmount` and
`takingAmount` are the integer string values passed to `createOrder`;
`slippageBps` is `none` when the call does not pass a `slippageBps` field
(entry orders do not). -/
inductive Event
  | createOrder (makingAmount takingAmount : ℤ) (slippageBps : Option ℕ)
  | signTx
  | executeTx
  deriving DecidableEq, Repr

/-- Mutable fields of `TradingService` relevant to the guard. -/
structure TradingState where
  isExecutingTrade : Bool
  tradesExecutedInSession : ℕ
  deriving DecidableEq, Repr

/-- Responses of all external collaborators consulted during one execution:
the token map (`getDefaultTokenMap`), the price feed
(`fetchPricesBySymbols`), the signing service, and the trigger API.
`none` models a missing / undefined response. -/
structure TradeEnv where
  tokenMint : Option String
  solMint : Option String
  tokenUsdPrice : Option ℚ
  solUsdPrice : Option ℚ
  tokenDecimals : Option ℕ
  walletPublicKey : Option String
  orderTransaction : Option String
  orderRequestId : Option String
  orderId : Option String
  signingSuccess : Bool
  execSuccess : Bool
  execSignature : Option String
  posId : String
  now : ℚ
  deriving DecidableEq, Repr

/-- Request argument of `TradingService.executeTradeForSession`. -/
structure EntryRequest where
  sessionId : String
  token : String
  action : Action
  confidence : ℚ
  tradeSizeSol : ℚ
  deriving DecidableEq, Repr

/-- Result value of `TradingService.executeTradeForSession`. -/
structure EntryResult where
  success : Bool
  executed : Bool
  message : String
  position : Option Position
  orderId : Option String
  transactionSignature : Option String
  deriving DecidableEq, Repr

/-- Failure result of the entry path (every `throw` site is converted by the
surrounding `catch` into this shape). -/
def entryFail (msg : String) : EntryResult :=
  { success := false, executed := false, message := msg,
    position := none, orderId := none, transactionSignature := none }

/-- Embedding of `TradingService.executeTradeForSession` (trading.service.ts:76-248).
Returns the post-call service state, the result value, and the ordered list
of collaborator calls performed.  The busy branch returns before the
`try`, so it leaves the flag untouched and performs no collaborator call;
the `finally` clears the flag on every other path.  On adapter-reported
execution failure (`executionResult.success` false) the code still builds
the `Position` record and returns `success: true, executed: true`. -/
def executeTradeForSession (st : TradingState) (env : TradeEnv) (req : EntryRequest) :
    TradingState × EntryResult × List Event :=
  if st.isExecutingTrade then
    (st, entryFail "Another trade is currently executing. Skipping.", [])
  else
    let stEnd : TradingState := { st with isExecutingTrade := false }
    match env.tokenMint, env.solMint with
    | some _tokenMint, some _solMint =>
      if jsTruthyQ env.tokenUsdPrice && jsTruthyQ env.solUsdPrice then
        let tokenPrice := jsQOr env.tokenUsdPrice 0
        let solPrice := jsQOr env.solUsdPrice 0
        let tokenDecimals := jsNatOr env.tokenDecimals 9
        let makingAmountLamports : ℤ := jsFloor (req.tradeSizeSol * 1000000000)
        let estimatedTokens : ℚ := req.tradeSizeSol * solPrice / tokenPrice
        let tokenSmallestUnits : ℤ := jsFloor (estimatedTokens * (10 : ℚ) ^ tokenDecimals)
        let makingAmount : ℤ :=
          match req.action with
          | .BUY => makingAmountLamports
          | .SELL => tokenSmallestUnits
        let takingAmount : ℤ :=
          match req.action with
          | .BUY => tokenSmallestUnits
          | .SELL => makingAmountLamports
        (match env.walletPublicKey with
        | some _wallet =>
          let evOrder : Event := .createOrder makingAmount takingAmount none
          (match env.orderTransaction with
          | some _tx =>
            if env.signingSuccess then
              let position : Position :=
                { id := env.posId
                  token := req.token
                  action := req.action
                  entryPrice := tokenPrice
                  amount := (match req.action with
                    | .BUY => (takingAmount : ℚ)
                    | .SELL => (makingAmount : ℚ)) / (10 : ℚ) ^ tokenDecimals
                  solSpent := req.tradeSizeSol
                  takeProfitPrice := tokenPrice *
                    (match req.action with | .BUY => 103/100 | .SELL => 97/100)
                  stopLossPrice := tokenPrice *
                    (match req.action with | .BUY => 95/100 | .SELL => 105/100)
                  status := .OPEN
                  createdAt := env.now
                  autoExitTime := env.now + 3 * 60 * 1000 }
              (stEnd,
                { success := true
                  executed := true
                  message := "order created and processed"
                  position := some position
                  orderId := env.orderId
                  transactionSignature := some (match env.execSignature with
                    | some s => s
                    | none => "pending") },
                [evOrder, .signTx, .executeTx])
            else
              (stEnd, entryFail "Transaction signing failed", [evOrder, .signTx])
          | none =>
            (stEnd, entryFail "Failed to create order - no transaction returned", [evOrder]))
        | none =>
          (stEnd, entryFail "Bot wallet not available - cannot execute trade", []))
      else
        (stEnd, entryFail "Could not fetch prices", [])
    | _, _ => (stEnd, entryFail "Missing mint mapping", [])

/-- Request argument of `TradingService.executeExitTrade`. -/
structure ExitRequest where
  positionId : String
  token : String
  action : Action
  amount : ℚ
  slippageBps : ℕ
  reason : String
  deriving DecidableEq, Repr

/-- Result value of `TradingService.executeExitTrade`. -/
structure ExitResult where
  success : Bool
  message : String
  orderId : Option String
  transactionSignature : Option String
  deriving DecidableEq, Repr

/-- Failure result of the exit path (each `throw` is caught and mapped to
this shape). -/
def exitFail (msg : String) : ExitResult :=
  { success := false, message := msg, orderId := none, transactionSignature := none }

/-- Embedding of `TradingService.executeExitTrade` (trading.service.ts:253-401).
It never reads or writes `isExecutingTrade`: the service state is passed
through unchanged on every path.  The slippage actually used is
`max(request.slippageBps, 300)`, and the making amount is
`BigInt(Math.floor(exitAmount)) * 10^tokenDecimals`.  All errors are caught
and converted to a failure result. -/
def tradingExecuteExitTrade (st : TradingState) (env : TradeEnv) (req : ExitRequest) :
    TradingState × ExitResult × List Event :=
  let actualSlippageBps : ℕ := max req.slippageBps 300
  match env.tokenMint, env.solMint with
  | some _tokenMint, some _solMint =>
    let tokenDecimals := jsNatOr env.tokenDecimals 9
    (match env.walletPublicKey with
    | some _wallet =>
      let exitAmount := req.amount
      let amountSmallestUnits : ℤ := jsFloor exitAmount * (10 : ℤ) ^ tokenDecimals
      let currentTokenPrice := jsQOr env.tokenUsdPrice (1/10)
      let currentSolPrice := jsQOr env.solUsdPrice 235
      let estimatedSolValue : ℚ := exitAmount * currentTokenPrice / currentSolPrice
      let estimatedSolLamports : ℤ := jsFloor (estimatedSolValue * 1000000000)
      let evOrder : Event :=
        .createOrder amountSmallestUnits estimatedSolLamports (some actualSlippageBps)
      (match env.orderTransaction with
      | some _tx =>
        if env.signingSuccess then
          (match env.orderRequestId with
          | some _rid =>
            if env.execSuccess then
              (st,
                { success := true
                  message := "Exit order created and executed"
                  orderId := some "swap"
                  transactionSignature := env.execSignature },
                [evOrder, .signTx, .executeTx])
            else
              (st, exitFail "Exit order execution failed", [evOrder, .signTx, .executeTx])
          | none =>
            (st, exitFail "No requestId returned from order creation", [evOrder, .signTx]))
        else
          (st, exitFail "Exit transaction signing failed", [evOrder, .signTx])
      | none =>
        (st, exitFail "Failed to create exit order - no transaction returned", [evOrder]))
    | none =>
      (st, exitFail "Bot wallet not available - cannot execute exit trade", []))
  | _, _ => (st, exitFail "Missing mint mapping", [])

/-- Request argument of `TradingService.createExitOrder`. -/
structure ExitOrderRequest where
  token : String
  action : Action
  amount : ℚ
  slippageBps : ℕ
  walletPublicKey : String
  reason : String
  deriving DecidableEq, Repr

/-- Result value of `TradingService.createExitOrder`. -/
structure ExitOrderResult where
  success : Bool
  orderId : Option String
  transaction : Option String
  message : String
  deriving DecidableEq, Repr

/-- Embedding of `TradingService.createExitOrder` (trading.service.ts:538-631).  Applies
the same `max(request.slippageBps, 300)` floor and a 98% safety buffer to
the amount before decimal scaling. -/
def createExitOrder (env : TradeEnv) (req : ExitOrderRequest) :
    ExitOrderResult × List Event :=
  let actualSlippageBps : ℕ := max req.slippageBps 300
  match env.tokenMint, env.solMint with
  | some _tokenMint, some _solMint =>
    if jsTruthyQ env.tokenUsdPrice && jsTruthyQ env.solUsdPrice then
      let tokenPrice := jsQOr env.tokenUsdPrice 0
      let solPrice := jsQOr env.solUsdPrice 0
      let tokenDecimals := jsNatOr env.tokenDecimals 9
      let safeAmount : ℚ := req.amount * (98/100)
      let amountSmallestUnits : ℤ := jsFloor (safeAmount * (10 : ℚ) ^ tokenDecimals)
      let estimatedSolValue : ℚ := safeAmount * tokenPrice / solPrice
      let estimatedSolLamports : ℤ := jsFloor (estimatedSolValue * 1000000000)
      let evOrder : Event :=
        .createOrder amountSmallestUnits estimatedSolLamports (some actualSlippageBps)
      match env.orderTransaction with
      | some tx =>
        ({ success := true, orderId := env.orderId, transaction := some tx,
           message := "Exit order created" }, [evOrder])
      | none =>
        ({ success := false, orderId := none, transaction := none,
           message := "Failed to create exit order - no transaction returned" }, [evOrder])
    else
      ({ success := false, orderId := none, transaction := none,
         message := "Could not fetch prices" }, [])
  | _, _ =>
    ({ success := false, orderId := none, transaction := none,
       message := "Missing mint mapping" }, [])

/-! ## BotService: monitor, exit retry, supervisor, fund ledger -/

/-- Exit trigger reason reported by `BotService.shouldExitPosition`
(bot.service.ts:500-519).  The source reports the matching condition as a
message string; only which condition matched is modelled. -/
inductive ExitReason
  | takeProfit
  | stopLoss
  | timeout
  deriving DecidableEq, Repr

/-- Embedding of `BotService.shouldExitPosition` (bot.service.ts:500-519): take-profit
(`currentPrice >= takeProfitPrice`), then stop-loss
(`currentPrice <= stopLossPrice`), then timeout (`now >= autoExitTime`);
`none` when no condition holds. -/
def shouldExitPosition (p : Position) (currentPrice : ℚ) (now : ℚ) : Option ExitReason :=
  if p.takeProfitPrice ≤ currentPrice then some .takeProfit
  else if currentPrice ≤ p.stopLossPrice then some .stopLoss
  else if p.autoExitTime ≤ now then some .timeout
  else none

/-- The escalating slippage ladder of `BotService.executeExitTrade`
(bot.service.ts:526), in percent. -/
def slippagePercentages : List ℕ := [3, 5, 7, 10, 15, 20]

/-- The ladder in basis points (each rung is `percent * 100`). -/
def exitLadderBps : List ℕ := slippagePercentages.map (fun p => p * 100)

/-- Outcome of one call to `TradingService.executeExitTrade` as observed by
the retry loop: a result with `success: true`, a result with
`success: false`, or a thrown exception (caught by the loop's `catch`). -/
inductive AttemptOutcome
  | ok
  | failResult
  | exc
  deriving DecidableEq, Repr

/-- Observable trace of one run of the exit retry loop: the slippage values
(basis points) of the attempts issued in order, the absolute indices of
attempts followed by the 3-second sleep, and whether the loop marked the
position CLOSED. -/
structure ExitLoopTrace where
  attemptedBps : List ℕ
  delayedAfter : List ℕ
  closed : Bool
  deriving DecidableEq, Repr

/-- The `for` loop of `BotService.executeExitTrade` (bot.service.ts:531-576)
over the remaining rungs, with `i` the absolute attempt index.  On a result
with `success: true` the loop stops (position CLOSED).  On a result with
`success: false` it logs and continues immediately.  Only in the `catch`
branch (a thrown error) does it sleep 3 seconds before the next rung, and
not after the last rung (`i < slippagePercentages.length - 1`, i.e. the
remaining-rung list is nonempty). -/
def exitRetryAux (f : ℕ → AttemptOutcome) : List ℕ → ℕ → ExitLoopTrace
  | [], _ => ⟨[], [], false⟩
  | p :: rest, i =>
    let bps := p * 100
    match f i with
    | .ok => ⟨[bps], [], true⟩
    | .failResult =>
      let t := exitRetryAux f rest (i + 1)
      ⟨bps :: t.attemptedBps, t.delayedAfter, t.closed⟩
    | .exc =>
      let t := exitRetryAux f rest (i + 1)
      ⟨bps :: t.attemptedBps, (if rest.isEmpty then [] else [i]) ++ t.delayedAfter, t.closed⟩

/-- Embedding of `BotService.executeExitTrade` (bot.service.ts:524-583): runs the retry
ladder and sets the position status to CLOSED at the first success, or
leaves it OPEN when every rung fails (line 582 keeps it OPEN for manual
intervention).  No exception escapes: every attempt outcome is handled. -/
def botExecuteExitTrade (p : Position) (f : ℕ → AttemptOutcome) :
    Position × ExitLoopTrace :=
  let t := exitRetryAux f slippagePercentages 0
  ({ p with status := if t.closed then .CLOSED else .OPEN }, t)

/-- Opposite action used by the retry loop when building the exit request
(`position.action === 'BUY' ? 'SELL' : 'BUY'`). -/
def oppositeAction : Action → Action
  | .BUY => .SELL
  | .SELL => .BUY

/-- The attempt outcome the retry loop actually observes when wired to
`TradingService.executeExitTrade`: rung `i` is issued with
`slippageBps = slippagePercentages[i] * 100` and the outcome is read off
the returned `success` flag.  The executor catches all its errors and
returns a result, so a thrown exception (`AttemptOutcome.exc`) never
occurs. -/
def composedAttemptOutcome (st : TradingState) (envs : ℕ → TradeEnv) (p : Position)
    (reason : String) : ℕ → AttemptOutcome := fun i =>
  let req : ExitRequest :=
    { positionId := p.id
      token := p.token
      action := oppositeAction p.action
      amount := p.amount
      slippageBps := (slippagePercentages.getD i 0) * 100
      reason := reason }
  if ((tradingExecuteExitTrade st (envs i) req).2.1).success then .ok else .failResult

/-- Embedding of `DepositService.returnUnusedFunds` (deposit.service.ts): adds the amount
to the wallet's available balance; a no-op when the wallet has no ledger
entry.  It performs no idempotency bookkeeping. -/
def returnUnusedFunds (dep : Option UserDeposit) (amountSol : ℚ) : Option UserDeposit :=
  match dep with
  | some d => some { d with availableSol := d.availableSol + amountSol }
  | none => none

/-- Result of `BotService.stopBot`. -/
structure StopResult where
  success : Bool
  message : String
  deriving DecidableEq, Repr

/-- Embedding of `BotService.stopBot` (bot.service.ts:252-278) acting on the looked-up
session and the owning wallet's ledger entry: sets the status to STOPPED
and, whenever `remainingSol > 0`, credits `remainingSol` back to the
ledger.  `remainingSol` itself is not reset and no terminal-state guard
exists, so each call repeats the credit. -/
def stopBot (sess : Option BotSession) (dep : Option UserDeposit) :
    StopResult × Option BotSession × Option UserDeposit :=
  match sess with
  | none => ({ success := false, message := "Session not found" }, none, dep)
  | some s =>
    let s' : BotSession := { s with status := .STOPPED }
    let dep' := if 0 < s.remainingSol then returnUnusedFunds dep s.remainingSol else dep
    ({ success := true, message := "Bot stopped." }, some s', dep')

/-- What the head of `BotService.startTradingForSession` decided to do. -/
inductive CadenceDecision
  | notRunning
  | quotaReached
  | belowMinimum
  | proceed
  deriving DecidableEq, Repr

/-- The limit checks at the head of `BotService.startTradingForSession`
(bot.service.ts:308-332): a non-RUNNING session is ignored; at the trade
quota the session is COMPLETED and `remainingSol` is returned to the ledger
(lines 314-326); below the 0.01 SOL minimum the session is COMPLETED and
the function returns without touching the ledger (lines 328-332). -/
def startTradingChecks (s : BotSession) (dep : Option UserDeposit) :
    BotSession × Option UserDeposit × CadenceDecision :=
  if s.status ≠ .RUNNING then (s, dep, .notRunning)
  else if s.maxTrades ≤ s.tradesExecuted then
    let dep' := if 0 < s.remainingSol then returnUnusedFunds dep s.remainingSol else dep
    ({ s with status := .COMPLETED }, dep', .quotaReached)
  else if s.remainingSol < 1/100 then
    ({ s with status := .COMPLETED }, dep, .belowMinimum)
  else (s, dep, .proceed)

/-- The caller-side effect in `BotService.analyzeAndTradeForSession`
(bot.service.ts:435-439): when the result is `executed` and carries a
position, append it and decrement `remainingSol` by `position.solSpent`. -/
def applyTradeResult (s : BotSession) (r : EntryResult) : BotSession :=
  match r.position with
  | some p =>
    if r.executed then
      { s with positions := s.positions ++ [p], remainingSol := s.remainingSol - p.solSpent }
    else s
  | none => s

/-- Embedding of `BotService.analyzeAndTradeForSession` (bot.service.ts:364-442) after
signal selection: the trade size is 90% of `remainingSol` (line 423), the
action is always BUY (line 419), and the executed position is applied to
the session. -/
def analyzeAndTradeForSession (s : BotSession) (st : TradingState) (env : TradeEnv)
    (token : String) (confidence : ℚ) : BotSession × EntryResult :=
  let req : EntryRequest :=
    { sessionId := s.sessionId
      token := token
      action := .BUY
      confidence := confidence
      tradeSizeSol := s.remainingSol * (9/10) }
  let r := (executeTradeForSession st env req).2.1
  (applyTradeResult s r, r)

/-- Embedding of `BotService.launchBot` (bot.service.ts:96-155): the session object is
created only after `DepositService.createDepositTransaction` succeeded,
which requires an available bot wallet and `amountSol > 0`
(deposit.service.ts:48-61); `depositTxBuilt` models the remaining
transient network outcome of building the transaction.  The new session
starts PENDING_DEPOSIT with `remainingSol = allocatedSol`, zero trades, a
quota of 5 and no positions. -/
def launchBot (botWalletAvailable depositTxBuilt : Bool) (sessionId walletPublicKey : String)
    (allocatedSol now : ℚ) : Option BotSession :=
  if botWalletAvailable && depositTxBuilt && decide (0 < allocatedSol) then
    some { sessionId := sessionId
           walletPublicKey := walletPublicKey
           allocatedSol := allocatedSol
           remainingSol := allocatedSol
           tradesExecuted := 0
           maxTrades := 5
           status := .PENDING_DEPOSIT
           startedAt := now
           positions := [] }
  else none

/-- Sets the status of the position at index `i` (the retry loop mutates
`position.status` in place, bot.service.ts:548/582). -/
def setPosStatusAt : List Position → ℕ → PosStatus → List Position
  | [], _, _ => []
  | p :: rest, 0, st => { p with status := st } :: rest
  | p :: rest, i + 1, st => p :: setPosStatusAt rest i st

/-- All mutations the source applies to a `BotSession` after creation:
an entry-trade attempt via `analyzeAndTradeForSession` (the only writer of
`remainingSol` and the only appender of positions), a status change
(confirm-deposit, stop, completion and failure paths), the trade counter
increment (bot.service.ts:337), and a position-status change by the exit
retry loop.  No path removes a position or edits its financial fields. -/
inductive SessionStep : BotSession → BotSession → Prop
  | trade (s : BotSession) (st : TradingState) (env : TradeEnv)
      (token : String) (confidence : ℚ) :
      SessionStep s (analyzeAndTradeForSession s st env token confidence).1
  | setStatus (s : BotSession) (x : SessionStatus) :
      SessionStep s { s with status := x }
  | incTrades (s : BotSession) :
      SessionStep s { s with tradesExecuted := s.tradesExecuted + 1 }
  | closePosition (s : BotSession) (i : ℕ) (x : PosStatus) :
      SessionStep s { s with positions := setPosStatusAt s.positions i x }

/-- The money-accounting invariant of a session. -/
def SessionInv (s : BotSession) : Prop :=
  s.remainingSol = s.allocatedSol - (s.positions.map Position.solSpent).sum ∧
    0 ≤ s.remainingSol

/-! ## Concrete instances used by witnesses and counterexamples -/

/-- A fully successful collaborator environment: all lookups present,
token price 2 USD, SOL price 200 USD, 2 token decimals, signing and
execution succeed. -/
def happyEnv : TradeEnv :=
  { tokenMint := some "TM", solMint := some "SM", tokenUsdPrice := some 2,
    solUsdPrice := some 200, tokenDecimals := some 2, walletPublicKey := some "W",
    orderTransaction := some "TX", orderRequestId := some "RID", orderId := some "OID",
    signingSuccess := true, execSuccess := true, execSignature := some "SIG",
    posId := "P1", now := 0 }

/-- An idle trading-service state (guard flag not held). -/
def idleState : TradingState := { isExecutingTrade := false, tradesExecutedInSession := 0 }

/-- A trading-service state whose guard flag is currently held. -/
def busyState : TradingState := { isExecutingTrade := true, tradesExecutedInSession := 0 }

/-- An open position used to drive the exit retry loop in concrete runs. -/
def stuckPos : Position :=
  { id := "pos1", token := "SOL", action := .BUY, entryPrice := 100, amount := 5,
    solSpent := 1, takeProfitPrice := 103, stopLossPrice := 95, status := .OPEN,
    createdAt := 0, autoExitTime := 180000 }

/-- A RUNNING session with 2/5 SOL uncommitted, used for the stop scenario. -/
def c4sess : BotSession :=
  { sessionId := "s4", walletPublicKey := "w4", allocatedSol := 1, remainingSol := 2/5,
    tradesExecuted := 2, maxTrades := 5, status := .RUNNING, startedAt := 0,
    positions := [] }

/-- A ledger entry with no available balance, used for the stop scenario. -/
def c4dep : UserDeposit :=
  { userId := "w4", userWalletAddress := "w4", depositedSol := 1, availableSol := 0,
    totalTrades := 1 }

/-- A RUNNING session whose remaining balance 1/200 is below the 0.01 SOL
minimum viable trade size. -/
def c5sess : BotSession :=
  { sessionId := "s5", walletPublicKey := "w5", allocatedSol := 1, remainingSol := 1/200,
    tradesExecuted := 1, maxTrades := 5, status := .RUNNING, startedAt := 0,
    positions := [] }

/-- A ledger entry for the minimum-size completion scenario. -/
def c5dep : UserDeposit :=
  { userId := "w5", userWalletAddress := "w5", depositedSol := 1, availableSol := 0,
    totalTrades := 1 }

/-- The collaborator environment with a failing execution acknowledgement
(order creation and signing still succeed). -/
def execFailEnv : TradeEnv := { happyEnv with execSuccess := false }

/-- A session entry request for 1/2 SOL. -/
def c3req : EntryRequest :=
  { sessionId := "s", token := "SOL", action := .BUY, confidence := 1,
    tradeSizeSol := 1/2 }

/-- The session produced by `launchBot` for a 1 SOL allocation. -/
def launchedSess : BotSession :=
  { sessionId := "s", walletPublicKey := "w", allocatedSol := 1, remainingSol := 1,
    tradesExecuted := 0, maxTrades := 5, status := .PENDING_DEPOSIT, startedAt := 0,
    positions := [] }

/-! ## Theorems -/

/-- C7: exit conditions are evaluated in the fixed priority order
take-profit, stop-loss, timeout; only the first matching condition's reason
is reported, a simultaneous take-profit and stop-loss reports take-profit,
and a position never exits for two reasons at once (exactly one reason, or
none, is ever produced). -/
theorem exitPriority_c7 (p : Position) (price now : ℚ) :
    (p.takeProfitPrice ≤ price → shouldExitPosition p price now = some .takeProfit) ∧
    (price < p.takeProfitPrice → price ≤ p.stopLossPrice →
      shouldExitPosition p price now = some .stopLoss) ∧
    (price < p.takeProfitPrice → p.stopLossPrice < price → p.autoExitTime ≤ now →
      shouldExitPosition p price now = some .timeout) ∧
    (price < p.takeProfitPrice → p.stopLossPrice < price → now < p.autoExitTime →
      shouldExitPosition p price now = none) ∧
    (p.takeProfitPrice ≤ price → price ≤ p.stopLossPrice →
      shouldExitPosition p price now = some .takeProfit) := by
  refine ⟨fun h1 => ?_, fun h1 h2 => ?_, fun h1 h2 h3 => ?_, fun h1 h2 h3 => ?_,
    fun h1 _h2 => ?_⟩
  · rw [shouldExitPosition, if_pos h1]
  · rw [shouldExitPosition, if_neg (not_le.mpr h1), if_pos h2]
  · rw [shouldExitPosition, if_neg (not_le.mpr h1), if_neg (not_le.mpr h2), if_pos h3]
  · rw [shouldExitPosition, if_neg (not_le.mpr h1), if_neg (not_le.mpr h2),
      if_neg (not_le.mpr h3)]
  · rw [shouldExitPosition, if_pos h1]

/-- C7 witness: a position with entry 100, take-profit 103, stop-loss 95,
observed price 104 before its deadline exits with reason take-profit. -/
theorem exitPriority_c7_witness :
    shouldExitPosition
      { id := "p", token := "SOL", action := .BUY, entryPrice := 100, amount := 1,
        solSpent := 1, takeProfitPrice := 103, stopLossPrice := 95, status := .OPEN,
        createdAt := 0, autoExitTime := 180000 } 104 0 = some .takeProfit :=
  (exitPriority_c7 _ 104 0).1 (by norm_num)

/-- C6: every `createOrder` call issued by either exit path
(`TradingService.executeExitTrade` and `TradingService.createExitOrder`)
carries slippage `max(requested, 300)` basis points: never below the 300
bps floor, and equal to the request whenever the request is at or above
the floor. -/
theorem exitSlippageFloor_c6 (st : TradingState) (env : TradeEnv) (req : ExitRequest)
    (req2 : ExitOrderRequest) (ma ta : ℤ) (sl : Option ℕ) :
    (Event.createOrder ma ta sl ∈ (tradingExecuteExitTrade st env req).2.2 →
      sl = some (max req.slippageBps 300)) ∧
    (Event.createOrder ma ta sl ∈ (createExitOrder env req2).2 →
      sl = some (max req2.slippageBps 300)) ∧
    300 ≤ max req.slippageBps 300 ∧
    (300 ≤ req.slippageBps → max req.slippageBps 300 = req.slippageBps) := by
  refine ⟨?_, ?_, le_max_right _ _, fun h => max_eq_left h⟩
  · unfold tradingExecuteExitTrade
    repeat' split
    all_goals intro hmem
    all_goals simp_all
  · unfold createExitOrder
    repeat' split
    all_goals intro hmem
    all_goals simp_all

/-- C6 witness: an exit of 5 tokens requested with 100 bps slippage is
issued to `createOrder` with slippage `max 100 300 = 300` bps. -/
theorem exitSlippageFloor_c6_witness :
    some (300 : ℕ) = some (max 100 300) ∧ 300 ≤ max 100 300 := by
  have hev : (tradingExecuteExitTrade idleState happyEnv
      { positionId := "p", token := "SOL", action := .SELL, amount := 5,
        slippageBps := 100, reason := "tp" }).2.2 =
      [.createOrder 500 50000000 (some 300), .signTx, .executeTx] := by
    simp only [tradingExecuteExitTrade, happyEnv, idleState, jsFloor_eq_floor, jsNatOr, jsQOr]
    norm_num
  refine ⟨(exitSlippageFloor_c6 idleState happyEnv
      { positionId := "p", token := "SOL", action := .SELL, amount := 5,
        slippageBps := 100, reason := "tp" }
      { token := "SOL", action := .SELL, amount := 5, slippageBps := 100,
        walletPublicKey := "W", reason := "tp" } 500 50000000 (some 300)).1 ?_,
    (exitSlippageFloor_c6 idleState happyEnv
      { positionId := "p", token := "SOL", action := .SELL, amount := 5,
        slippageBps := 100, reason := "tp" }
      { token := "SOL", action := .SELL, amount := 5, slippageBps := 100,
        walletPublicKey := "W", reason := "tp" } 500 50000000 (some 300)).2.2.1⟩
  rw [hev]
  simp

/-- C10: whenever `TradingService.executeExitTrade` reaches order creation
(mints and wallet available), the making amount submitted to the adapter is
`⌊requested amount⌋ * 10^tokenDecimals`: the stored position amount is
truncated to a whole number of tokens before decimal scaling, and a
position amount in `[0, 1)` yields a zero-amount order. -/
theorem exitAmountTruncation_c10 (st : TradingState) (env : TradeEnv) (req : ExitRequest)
    (h1 : env.tokenMint.isSome) (h2 : env.solMint.isSome) (h3 : env.walletPublicKey.isSome) :
    (∃ ta sl rest, (tradingExecuteExitTrade st env req).2.2 =
      Event.createOrder (⌊req.amount⌋ * (10 : ℤ) ^ (jsNatOr env.tokenDecimals 9)) ta sl
        :: rest) ∧
    (0 ≤ req.amount → req.amount < 1 →
      ⌊req.amount⌋ * (10 : ℤ) ^ (jsNatOr env.tokenDecimals 9) = 0) := by
  constructor
  · obtain ⟨tm, htm⟩ := Option.isSome_iff_exists.mp h1
    obtain ⟨sm, hsm⟩ := Option.isSome_iff_exists.mp h2
    obtain ⟨w, hw⟩ := Option.isSome_iff_exists.mp h3
    rcases htx : env.orderTransaction with _ | tx <;>
      rcases hsig : env.signingSuccess <;>
      rcases hrid : env.orderRequestId with _ | rid <;>
      rcases hex : env.execSuccess <;>
      simp only [tradingExecuteExitTrade, htm, hsm, hw, htx, hsig, hrid, hex,
        jsFloor_eq_floor, Bool.false_eq_true, if_false, if_true] <;>
      exact ⟨_, _, _, rfl⟩
  · intro hge hlt
    have : ⌊req.amount⌋ = 0 := Int.floor_eq_zero_iff.mpr ⟨hge, hlt⟩
    rw [this, zero_mul]

/-- C10 witness: exiting a stored amount of 1/2 token with 2 decimals
submits a making amount of `⌊1/2⌋ * 10^2 = 0`. -/
theorem exitAmountTruncation_c10_witness :
    (∃ ta sl rest, (tradingExecuteExitTrade idleState happyEnv
      { positionId := "p", token := "SOL", action := .SELL, amount := 1/2,
        slippageBps := 300, reason := "tp" }).2.2 =
      Event.createOrder (⌊(1/2 : ℚ)⌋ * (10 : ℤ) ^ (jsNatOr (some 2) 9)) ta sl :: rest) ∧
    (0 ≤ (1/2 : ℚ) → (1/2 : ℚ) < 1 →
      ⌊(1/2 : ℚ)⌋ * (10 : ℤ) ^ (jsNatOr (some 2) 9) = 0) :=
  exitAmountTruncation_c10 idleState happyEnv
    { positionId := "p", token := "SOL", action := .SELL, amount := 1/2,
      slippageBps := 300, reason := "tp" }
    (by rfl) (by rfl) (by rfl)

/-- When no attempt over the remaining rungs succeeds, the loop issues every
remaining rung and does not close the position. -/
lemma exitRetryAux_all_notOk (f : ℕ → AttemptOutcome) (l : List ℕ) (i : ℕ)
    (h : ∀ j, j < l.length → f (i + j) ≠ .ok) :
    (exitRetryAux f l i).attemptedBps = l.map (fun p => p * 100) ∧
      (exitRetryAux f l i).closed = false := by
  induction l generalizing i with
  | nil => simp [exitRetryAux]
  | cons p rest ih =>
    have h0 : f i ≠ .ok := by simpa using h 0 (Nat.succ_pos _)
    have hrest : ∀ j, j < rest.length → f (i + 1 + j) ≠ .ok := by
      intro j hj
      have h2 := h (j + 1) (by simpa using Nat.succ_lt_succ hj)
      rwa [show i + (j + 1) = i + 1 + j by omega] at h2
    rcases hf : f i with _ | _ | _
    · exact absurd hf h0
    · have hr := ih (i + 1) hrest
      simp [exitRetryAux, hf, hr.1, hr.2]
    · have hr := ih (i + 1) hrest
      simp [exitRetryAux, hf, hr.1, hr.2]

/-- When the first success over the remaining rungs is at relative offset
`k`, the loop issues exactly the first `k + 1` remaining rungs and closes
the position. -/
lemma exitRetryAux_firstOk (f : ℕ → AttemptOutcome) (l : List ℕ) (i k : ℕ)
    (hk : k < l.length) (hok : f (i + k) = .ok)
    (hmin : ∀ j, j < k → f (i + j) ≠ .ok) :
    (exitRetryAux f l i).attemptedBps = (l.take (k + 1)).map (fun p => p * 100) ∧
      (exitRetryAux f l i).closed = true := by
  induction l generalizing i k with
  | nil => exact absurd hk (by simp)
  | cons p rest ih =>
    cases k with
    | zero =>
      have h0 : f i = .ok := by simpa using hok
      simp [exitRetryAux, h0]
    | succ k' =>
      have h0 : f i ≠ .ok := by simpa using hmin 0 (Nat.succ_pos _)
      have hok' : f (i + 1 + k') = .ok := by
        rwa [show i + 1 + k' = i + (k' + 1) by omega]
      have hmin' : ∀ j, j < k' → f (i + 1 + j) ≠ .ok := by
        intro j hj
        have h2 := hmin (j + 1) (Nat.succ_lt_succ hj)
        rwa [show i + (j + 1) = i + 1 + j by omega] at h2
      have hk' : k' < rest.length := Nat.lt_of_succ_lt_succ hk
      rcases hf : f i with _ | _ | _
      · exact absurd hf h0
      · have hr := ih (i + 1) k' hk' hok' hmin'
        simp [exitRetryAux, hf, hr.1, hr.2]
      · have hr := ih (i + 1) k' hk' hok' hmin'
        simp [exitRetryAux, hf, hr.1, hr.2]

/-- C8: for every run of the exit retry loop, the tolerances attempted are
an initial segment of the ladder [300, 500, 700, 1000, 1500, 2000] bps
(hence at most six attempts): they run up to and including the first
successful rung, after which the position is CLOSED and no further rung is
tried; if every rung fails the attempts are exactly the full ladder, no
attempt beyond it is made, and the position's status remains OPEN (the
loop itself always returns normally). -/
theorem exitRetryLadder_c8 (p : Position) (f : ℕ → AttemptOutcome) :
    (botExecuteExitTrade p f).2.attemptedBps.length ≤ 6 ∧
    ((∃ k, k < 6 ∧ f k = .ok ∧ (∀ j, j < k → f j ≠ .ok) ∧
        (botExecuteExitTrade p f).2.attemptedBps = exitLadderBps.take (k + 1) ∧
        (botExecuteExitTrade p f).1.status = .CLOSED) ∨
      ((∀ k, k < 6 → f k ≠ .ok) ∧
        (botExecuteExitTrade p f).2.attemptedBps = exitLadderBps ∧
        (botExecuteExitTrade p f).1.status = .OPEN)) := by
  by_cases hex : ∃ k, k < 6 ∧ f k = .ok
  · classical
    have hfind := Nat.find_spec hex
    set k0 := Nat.find hex with hk0
    have hmin : ∀ j, j < k0 → f j ≠ .ok := by
      intro j hj hok
      have hj6 : j < 6 := lt_trans hj hfind.1
      exact Nat.find_min hex hj (⟨hj6, hok⟩)
    have hk6 : k0 < slippagePercentages.length := by
      simpa [slippagePercentages] using hfind.1
    have hr := exitRetryAux_firstOk f slippagePercentages 0 k0 hk6
      (by simpa using hfind.2) (by simpa using hmin)
    constructor
    · simp only [botExecuteExitTrade, hr.1, List.length_map, List.length_take]
      simp [slippagePercentages]
    · left
      refine ⟨k0, hfind.1, hfind.2, hmin, ?_, ?_⟩
      · simp only [botExecuteExitTrade, hr.1, exitLadderBps, List.map_take]
      · simp [botExecuteExitTrade, hr.2]
  · push_neg at hex
    have hall : ∀ k, k < 6 → f k ≠ .ok := fun k hk => hex k hk
    have hr := exitRetryAux_all_notOk f slippagePercentages 0
      (by intro j hj; simpa using hall j (by simpa [slippagePercentages] using hj))
    constructor
    · simp only [botExecuteExitTrade, hr.1, List.length_map]
      simp [slippagePercentages]
    · right
      refine ⟨hall, ?_, ?_⟩
      · simp only [botExecuteExitTrade, hr.1, exitLadderBps]
      · simp [botExecuteExitTrade, hr.2]

/-- C8 witness: with every rung failing by returned result, the loop issues
exactly the six ladder tolerances and leaves the position OPEN. -/
theorem exitRetryLadder_c8_witness :
    (botExecuteExitTrade stuckPos (fun _ => .failResult)).2.attemptedBps.length ≤ 6 ∧
    ((∃ k, k < 6 ∧ (fun (_ : ℕ) => AttemptOutcome.failResult) k = .ok ∧
        (∀ j, j < k → (fun (_ : ℕ) => AttemptOutcome.failResult) j ≠ .ok) ∧
        (botExecuteExitTrade stuckPos (fun _ => .failResult)).2.attemptedBps =
          exitLadderBps.take (k + 1) ∧
        (botExecuteExitTrade stuckPos (fun _ => .failResult)).1.status = .CLOSED) ∨
      ((∀ k, k < 6 → (fun (_ : ℕ) => AttemptOutcome.failResult) k ≠ .ok) ∧
        (botExecuteExitTrade stuckPos (fun _ => .failResult)).2.attemptedBps =
          exitLadderBps ∧
        (botExecuteExitTrade stuckPos (fun _ => .failResult)).1.status = .OPEN)) :=
  exitRetryLadder_c8 stuckPos (fun _ => .failResult)

/-- A delayed index recorded by the loop always comes from the `catch`
branch (a thrown attempt) and is never the last remaining rung. -/
lemma exitRetryAux_delayedAfter_exc (f : ℕ → AttemptOutcome) (l : List ℕ) (i : ℕ) :
    ∀ j, j ∈ (exitRetryAux f l i).delayedAfter →
      f j = .exc ∧ i ≤ j ∧ j + 2 ≤ i + l.length := by
  induction l generalizing i with
  | nil => simp [exitRetryAux]
  | cons p rest ih =>
    intro j hj
    rcases hf : f i with _ | _ | _ <;> rw [exitRetryAux] at hj <;> simp only [hf] at hj
    · simp at hj
    · obtain ⟨h1, h2, h3⟩ := ih (i + 1) j hj
      exact ⟨h1, by omega, by simp only [List.length_cons]; omega⟩
    · simp only [List.mem_append] at hj
      rcases hj with hj | hj
      · rcases hrest : rest.isEmpty with _ | _
        · have hlen : rest.length ≠ 0 := by
            simpa [List.isEmpty_iff_length_eq_zero] using hrest
          rw [hrest] at hj
          simp at hj
          subst hj
          exact ⟨hf, le_refl _, by simp only [List.length_cons]; omega⟩
        · rw [hrest] at hj
          simp at hj
      · obtain ⟨h1, h2, h3⟩ := ih (i + 1) j hj
        exact ⟨h1, by omega, by simp only [List.length_cons]; omega⟩

/-- When no attempt throws, the loop never sleeps between rungs. -/
lemma exitRetryAux_delayedAfter_nil (f : ℕ → AttemptOutcome) (l : List ℕ) (i : ℕ)
    (h : ∀ j, f j ≠ .exc) : (exitRetryAux f l i).delayedAfter = [] := by
  induction l generalizing i with
  | nil => simp [exitRetryAux]
  | cons p rest ih =>
    rcases hf : f i with _ | _ | _
    · simp [exitRetryAux, hf]
    · simp [exitRetryAux, hf, ih (i + 1)]
    · exact absurd hf (h i)

/-- The wired-up attempt outcome is read off a returned result value and is
never a thrown exception (`TradingService.executeExitTrade` catches every
error and returns a failure result). -/
lemma composedAttemptOutcome_ne_exc (st : TradingState) (envs : ℕ → TradeEnv)
    (p : Position) (reason : String) (i : ℕ) :
    composedAttemptOutcome st envs p reason i ≠ .exc := by
  unfold composedAttemptOutcome
  dsimp only
  split <;> simp

/-- C9 counterexample: a run in which all six attempts fail (each returning
`success: false`) performs no 3-second inter-attempt delay at all — the
claim would require a delay after each of the first five failed attempts.
The sleep is only reachable from the `catch` branch, which a returned
failure result does not enter. -/
theorem exitDelay_c9_cex :
    (botExecuteExitTrade stuckPos (fun _ => .failResult)).2.attemptedBps =
      [300, 500, 700, 1000, 1500, 2000] ∧
    (botExecuteExitTrade stuckPos (fun _ => .failResult)).2.closed = false ∧
    (botExecuteExitTrade stuckPos (fun _ => .failResult)).2.delayedAfter = [] ∧
    ([] : List ℕ) ≠ [0, 1, 2, 3, 4] := by
  refine ⟨?_, ?_, ?_, by simp⟩ <;>
    simp [botExecuteExitTrade, exitRetryAux, slippagePercentages]

/-- C9 (amended): the 3-second inter-attempt delay is executed only after
an attempt that threw an exception, and never after the last rung; an
attempt that merely returns an unsuccessful result is followed immediately
by the next rung, and since `TradingService.executeExitTrade` catches all
its errors and returns a result, the composed system performs no
inter-attempt delay at all. -/
theorem exitDelay_c9_amended :
    (∀ (p : Position) (f : ℕ → AttemptOutcome) (j : ℕ),
        j ∈ (botExecuteExitTrade p f).2.delayedAfter → f j = .exc ∧ j < 5) ∧
    (∀ (p : Position) (st : TradingState) (envs : ℕ → TradeEnv) (reason : String),
        (botExecuteExitTrade p
          (composedAttemptOutcome st envs p reason)).2.delayedAfter = []) := by
  constructor
  · intro p f j hj
    have h := exitRetryAux_delayedAfter_exc f slippagePercentages 0 j
      (by simpa [botExecuteExitTrade] using hj)
    refine ⟨h.1, ?_⟩
    have := h.2.2
    simp only [slippagePercentages] at this
    simp only [List.length_cons, List.length_nil] at this
    omega
  · intro p st envs reason
    simp only [botExecuteExitTrade]
    exact exitRetryAux_delayedAfter_nil _ _ _
      (fun j => composedAttemptOutcome_ne_exc st envs p reason j)

/-- C9 amended witness: a run whose first attempt throws sleeps after that
attempt (index 0, not the last rung), and a fully wired run against the
trade executor performs no delay. -/
theorem exitDelay_c9_amended_witness :
    ((fun (_ : ℕ) => AttemptOutcome.exc) 0 = .exc ∧ 0 < 5) ∧
    (botExecuteExitTrade stuckPos
      (composedAttemptOutcome idleState (fun _ => happyEnv) stuckPos "tp")).2.delayedAfter
      = [] := by
  constructor
  · refine exitDelay_c9_amended.1 stuckPos (fun _ => .exc) 0 ?_
    simp [botExecuteExitTrade, exitRetryAux, slippagePercentages]
  · exact exitDelay_c9_amended.2 stuckPos idleState (fun _ => happyEnv) "tp"

/-- C1 counterexample: `TradingService.executeExitTrade` called while the
mutual-exclusion flag is held does not return a busy result and does
perform order creation, signing, and submission — the claim asserts every
exit acquires the flag first and busy-skips while it is held. -/
theorem singleFlight_c1_cex :
    busyState.isExecutingTrade = true ∧
    (tradingExecuteExitTrade busyState happyEnv
      { positionId := "p", token := "SOL", action := .SELL, amount := 5,
        slippageBps := 300, reason := "tp" }).2.1.success = true ∧
    (tradingExecuteExitTrade busyState happyEnv
      { positionId := "p", token := "SOL", action := .SELL, amount := 5,
        slippageBps := 300, reason := "tp" }).2.2 =
      [.createOrder 500 50000000 (some 300), .signTx, .executeTx] := by
  refine ⟨rfl, ?_, ?_⟩ <;>
    simp only [tradingExecuteExitTrade, happyEnv, busyState, jsFloor_eq_floor,
      jsNatOr, jsQOr] <;>
    norm_num

/-- C1 (amended): only the entry path takes part in the mutual exclusion.
`executeTradeForSession` returns immediately with the non-error busy
result, leaving the state untouched and performing no collaborator call,
whenever the flag is held, and otherwise clears the flag unconditionally
on return; `TradingService.executeExitTrade` never reads or writes the
flag: it passes the service state through unchanged and its result and
collaborator calls are independent of the flag, so exit executions are not
serialized by the guard. -/
theorem singleFlight_c1_amended :
    (∀ (st : TradingState) (env : TradeEnv) (req : EntryRequest),
        st.isExecutingTrade = true →
        executeTradeForSession st env req =
          (st, entryFail "Another trade is currently executing. Skipping.", [])) ∧
    (∀ (st : TradingState) (env : TradeEnv) (req : EntryRequest),
        st.isExecutingTrade = false →
        (executeTradeForSession st env req).1.isExecutingTrade = false) ∧
    (∀ (st : TradingState) (env : TradeEnv) (req : ExitRequest),
        (tradingExecuteExitTrade st env req).1 = st) ∧
    (∀ (st st' : TradingState) (env : TradeEnv) (req : ExitRequest),
        (tradingExecuteExitTrade st env req).2 =
          (tradingExecuteExitTrade st' env req).2) := by
  refine ⟨?_, ?_, ?_, ?_⟩
  · intro st env req h
    simp [executeTradeForSession, h]
  · intro st env req h
    unfold executeTradeForSession
    simp only [h, Bool.false_eq_true, if_false]
    repeat' split
    all_goals rfl
  · intro st env req
    unfold tradingExecuteExitTrade
    repeat' split
    all_goals rfl
  · intro st st' env req
    unfold tradingExecuteExitTrade
    repeat' split
    all_goals rfl

/-- C1 amended witness: with the flag held, an entry call returns the busy
result with no collaborator calls and unchanged state, while an exit call
run in the same held-flag state leaves the state unchanged. -/
theorem singleFlight_c1_amended_witness :
    executeTradeForSession busyState happyEnv
      { sessionId := "s", token := "SOL", action := .BUY, confidence := 1,
        tradeSizeSol := 1/2 } =
      (busyState, entryFail "Another trade is currently executing. Skipping.", []) ∧
    (tradingExecuteExitTrade busyState happyEnv
      { positionId := "p", token := "SOL", action := .SELL, amount := 5,
        slippageBps := 300, reason := "tp" }).1 = busyState := by
  refine ⟨singleFlight_c1_amended.1 busyState happyEnv _ rfl,
    singleFlight_c1_amended.2.2.1 busyState happyEnv _⟩

/-- C3: when order creation and signing succeed but the execution adapter
reports failure, `executeTradeForSession` still constructs a Position,
returns `success: true, executed: true`, the caller appends the Position
and decrements `remainingSol` by its `solSpent` (equal to the requested
trade size) — and the success flag, executed flag and recorded Position
are identical to what an adapter-reported success would have produced. -/
theorem entryFailureRecorded_c3 (s : BotSession) (st : TradingState) (env : TradeEnv)
    (req : EntryRequest)
    (hbusy : st.isExecutingTrade = false)
    (htm : env.tokenMint.isSome) (hsm : env.solMint.isSome)
    (htp : jsTruthyQ env.tokenUsdPrice = true) (hsp : jsTruthyQ env.solUsdPrice = true)
    (hw : env.walletPublicKey.isSome) (htx : env.orderTransaction.isSome)
    (hsig : env.signingSuccess = true) (_hex : env.execSuccess = false) :
    (executeTradeForSession st env req).2.1.success = true ∧
    (executeTradeForSession st env req).2.1.executed = true ∧
    ((executeTradeForSession st env req).2.1.position).isSome = true ∧
    (∀ p, (executeTradeForSession st env req).2.1.position = some p →
      p.solSpent = req.tradeSizeSol ∧ p.status = .OPEN ∧
      applyTradeResult s (executeTradeForSession st env req).2.1 =
        { s with positions := s.positions ++ [p],
                 remainingSol := s.remainingSol - req.tradeSizeSol }) ∧
    (executeTradeForSession st { env with execSuccess := true } req).2.1.success =
      (executeTradeForSession st env req).2.1.success ∧
    (executeTradeForSession st { env with execSuccess := true } req).2.1.executed =
      (executeTradeForSession st env req).2.1.executed ∧
    (executeTradeForSession st { env with execSuccess := true } req).2.1.position =
      (executeTradeForSession st env req).2.1.position := by
  obtain ⟨tm, htm'⟩ := Option.isSome_iff_exists.mp htm
  obtain ⟨sm, hsm'⟩ := Option.isSome_iff_exists.mp hsm
  obtain ⟨w, hw'⟩ := Option.isSome_iff_exists.mp hw
  obtain ⟨tx, htx'⟩ := Option.isSome_iff_exists.mp htx
  refine ⟨?_, ?_, ?_, ?_, ?_, ?_, ?_⟩ <;>
    simp only [executeTradeForSession, applyTradeResult, hbusy, htm', hsm', htp, hsp,
      hw', htx', hsig, Bool.false_eq_true, if_false, Bool.and_self, if_true]
  all_goals try rfl
  intro p hp
  rw [Option.some_inj] at hp
  subst hp
  refine ⟨rfl, rfl, ?_⟩
  rfl

/-- C3 witness: a concrete run with the adapter reporting failure records
the position and debits the session exactly like a successful run. -/
theorem entryFailureRecorded_c3_witness :
    (executeTradeForSession idleState execFailEnv c3req).2.1.success = true ∧
    (executeTradeForSession idleState execFailEnv c3req).2.1.executed = true ∧
    ((executeTradeForSession idleState execFailEnv c3req).2.1.position).isSome = true ∧
    (∀ p, (executeTradeForSession idleState execFailEnv c3req).2.1.position = some p →
      p.solSpent = c3req.tradeSizeSol ∧ p.status = .OPEN ∧
      applyTradeResult c4sess (executeTradeForSession idleState execFailEnv c3req).2.1 =
        { c4sess with positions := c4sess.positions ++ [p],
                      remainingSol := c4sess.remainingSol - c3req.tradeSizeSol }) ∧
    (executeTradeForSession idleState { execFailEnv with execSuccess := true }
        c3req).2.1.success =
      (executeTradeForSession idleState execFailEnv c3req).2.1.success ∧
    (executeTradeForSession idleState { execFailEnv with execSuccess := true }
        c3req).2.1.executed =
      (executeTradeForSession idleState execFailEnv c3req).2.1.executed ∧
    (executeTradeForSession idleState { execFailEnv with execSuccess := true }
        c3req).2.1.position =
      (executeTradeForSession idleState execFailEnv c3req).2.1.position :=
  entryFailureRecorded_c3 c4sess idleState execFailEnv c3req
    rfl rfl rfl rfl rfl rfl rfl rfl rfl

/-- Any position returned by `executeTradeForSession` carries
`solSpent = request.tradeSizeSol` (trading.service.ts:215). -/
lemma entry_position_solSpent (st : TradingState) (env : TradeEnv) (req : EntryRequest) :
    ∀ p, (executeTradeForSession st env req).2.1.position = some p →
      p.solSpent = req.tradeSizeSol := by
  intro p hp
  unfold executeTradeForSession at hp
  repeat' split at hp
  all_goals simp_all [entryFail]
  all_goals rw [← hp]

/-- Setting a position's status leaves the committed amounts unchanged. -/
lemma setPosStatusAt_map_solSpent (l : List Position) (i : ℕ) (x : PosStatus) :
    (setPosStatusAt l i x).map Position.solSpent = l.map Position.solSpent := by
  induction l generalizing i with
  | nil => rfl
  | cons p rest ih =>
    cases i with
    | zero => simp [setPosStatusAt]
    | succ i' => simp [setPosStatusAt, ih]

/-- One entry-trade cadence step preserves the accounting invariant: the
appended position's `solSpent` is exactly the 90%-of-remaining trade size,
so the decrement keeps the sum identity and leaves a tenth of the previous
remaining balance. -/
lemma sessionInv_trade (s : BotSession) (st : TradingState) (env : TradeEnv)
    (token : String) (confidence : ℚ) (h : SessionInv s) :
    SessionInv (analyzeAndTradeForSession s st env token confidence).1 := by
  obtain ⟨hsum, hpos⟩ := h
  unfold analyzeAndTradeForSession applyTradeResult
  dsimp only
  cases hp : (executeTradeForSession st env
      { sessionId := s.sessionId, token := token, action := .BUY,
        confidence := confidence, tradeSizeSol := s.remainingSol * (9/10) }).2.1.position
    with
  | none => exact ⟨hsum, hpos⟩
  | some p =>
    have hsol : p.solSpent = s.remainingSol * (9/10) :=
      entry_position_solSpent st env _ p hp
    dsimp only
    by_cases hex : (executeTradeForSession st env
        { sessionId := s.sessionId, token := token, action := .BUY,
          confidence := confidence, tradeSizeSol := s.remainingSol * (9/10) }).2.1.executed
    · rw [if_pos hex]
      constructor
      · simp only [List.map_append, List.sum_append, List.map_cons, List.map_nil,
          List.sum_cons, List.sum_nil]
        rw [hsum, hsol]
        ring
      · rw [hsol]
        dsimp only
        nlinarith [hpos]
    · rw [if_neg hex]
      exact ⟨hsum, hpos⟩

/-- C2: for every session created by `launchBot` and every reachable
successor state under the session mutations of the source, `remainingSol`
equals `allocatedSol` minus the sum of `solSpent` over all positions ever
appended, and is never negative (`remainingSol` starts at `allocatedSol`
and each executed entry decrements it by exactly the appended position's
`solSpent`, which is 90% of the balance at that moment). -/
theorem remainingInvariant_c2 (bw dtx : Bool) (sid w : String) (alloc now : ℚ)
    (s0 s : BotSession)
    (hlaunch : launchBot bw dtx sid w alloc now = some s0)
    (hsteps : Relation.ReflTransGen SessionStep s0 s) :
    s.remainingSol = s.allocatedSol - (s.positions.map Position.solSpent).sum ∧
      0 ≤ s.remainingSol := by
  have hinv0 : SessionInv s0 := by
    unfold launchBot at hlaunch
    split at hlaunch
    · rename_i hcond
      have halloc : 0 < alloc := by
        simp only [Bool.and_eq_true, decide_eq_true_eq] at hcond
        exact hcond.2
      injection hlaunch with h
      subst h
      exact ⟨by simp, le_of_lt halloc⟩
    · exact Option.noConfusion hlaunch
  have hfinal : SessionInv s := by
    induction hsteps with
    | refl => exact hinv0
    | tail _hsteps hstep ih =>
      cases hstep with
      | trade st env token confidence => exact sessionInv_trade _ st env _ _ ih
      | setStatus x => exact ⟨ih.1, ih.2⟩
      | incTrades => exact ⟨ih.1, ih.2⟩
      | closePosition i x =>
        refine ⟨?_, ih.2⟩
        dsimp only
        rw [setPosStatusAt_map_solSpent]
        exact ih.1
  exact hfinal

/-- C2 witness: a freshly launched 1-SOL session is reachable and satisfies
the accounting invariant. -/
theorem remainingInvariant_c2_witness :
    launchBot true true "s" "w" 1 0 = some launchedSess ∧
    launchedSess.remainingSol =
      launchedSess.allocatedSol - (launchedSess.positions.map Position.solSpent).sum ∧
    0 ≤ launchedSess.remainingSol := by
  have hl : launchBot true true "s" "w" 1 0 = some launchedSess := by
    simp [launchBot, launchedSess]
  exact ⟨hl, remainingInvariant_c2 true true "s" "w" 1 0 launchedSess launchedSess hl
    Relation.ReflTransGen.refl⟩

/-- C4 counterexample: stopping a RUNNING session with 2/5 SOL remaining
credits the ledger with 2/5, but a second `stopBot` call on the same
session credits another 2/5 (total 4/5): the claim that the available
balance increases exactly once even under a double stop is false —
`stopBot` neither zeroes `remainingSol` nor guards terminal states, and
`returnUnusedFunds` is not idempotent. -/
theorem stopReturnsFunds_c4_cex :
    (stopBot (some c4sess) (some c4dep)).1.success = true ∧
    (stopBot (some c4sess) (some c4dep)).2.2 =
      some { c4dep with availableSol := 2/5 } ∧
    (stopBot (stopBot (some c4sess) (some c4dep)).2.1
        (stopBot (some c4sess) (some c4dep)).2.2).2.2 =
      some { c4dep with availableSol := 4/5 } ∧
    (4/5 : ℚ) ≠ 2/5 := by
  refine ⟨rfl, ?_, ?_, by norm_num⟩ <;>
    simp only [stopBot, returnUnusedFunds, c4sess, c4dep] <;>
    norm_num

/-- C4 (amended): `stop` on a RUNNING session with remaining `r > 0`
returns success, transitions the session to STOPPED, and increases the
wallet's available balance by exactly `r` — but not exactly once: the
session's `remainingSol` is left unchanged and no terminal-state guard
exists, so a second `stop` call increases the available balance by `r`
again. -/
theorem stopReturnsFunds_c4_amended (s : BotSession) (d : UserDeposit)
    (_hrun : s.status = .RUNNING) (hpos : 0 < s.remainingSol) :
    (stopBot (some s) (some d)).1.success = true ∧
    (stopBot (some s) (some d)).2.1 = some { s with status := .STOPPED } ∧
    (stopBot (some s) (some d)).2.2 =
      some { d with availableSol := d.availableSol + s.remainingSol } ∧
    (stopBot ((stopBot (some s) (some d)).2.1) ((stopBot (some s) (some d)).2.2)).2.2 =
      some { d with availableSol :=
        d.availableSol + s.remainingSol + s.remainingSol } := by
  refine ⟨rfl, ?_, ?_, ?_⟩ <;>
    simp [stopBot, returnUnusedFunds, if_pos hpos]

/-- C4 amended witness: the concrete double-stop run crediting 2/5 twice. -/
theorem stopReturnsFunds_c4_amended_witness :
    (stopBot (some c4sess) (some c4dep)).1.success = true ∧
    (stopBot (some c4sess) (some c4dep)).2.1 =
      some { c4sess with status := .STOPPED } ∧
    (stopBot (some c4sess) (some c4dep)).2.2 =
      some { c4dep with availableSol := c4dep.availableSol + c4sess.remainingSol } ∧
    (stopBot ((stopBot (some c4sess) (some c4dep)).2.1)
        ((stopBot (some c4sess) (some c4dep)).2.2)).2.2 =
      some { c4dep with availableSol :=
        c4dep.availableSol + c4sess.remainingSol + c4sess.remainingSol } :=
  stopReturnsFunds_c4_amended c4sess c4dep rfl (by norm_num [c4sess])

/-- C5 counterexample: a RUNNING session with remaining 1/200 SOL (below
the 0.01 minimum, quota not reached) is transitioned to COMPLETED while
the ledger entry is returned unchanged; the claim requires the remaining
balance to be credited back, which would have produced available 1/200
instead of 0. -/
theorem minSizeCompletion_c5_cex :
    startTradingChecks c5sess (some c5dep) =
      ({ c5sess with status := .COMPLETED }, some c5dep, .belowMinimum) ∧
    returnUnusedFunds (some c5dep) c5sess.remainingSol =
      some { c5dep with availableSol := 1/200 } ∧
    some c5dep ≠ some { c5dep with availableSol := (1/200 : ℚ) } := by
  refine ⟨?_, ?_, ?_⟩
  · simp only [startTradingChecks, c5sess, c5dep]
    norm_num
  · simp only [returnUnusedFunds, c5sess, c5dep]
    norm_num
  · intro h
    rw [Option.some_inj] at h
    have h2 := congrArg UserDeposit.availableSol h
    norm_num [c5dep] at h2

/-- C5 (amended): when the trading cadence finds a RUNNING session whose
remaining balance is below the 0.01 SOL minimum viable trade size (and the
trade quota is not yet reached), it transitions the session to COMPLETED
but — unlike the trade-quota path — does not return the remaining balance
to the Fund Ledger's available balance. -/
theorem minSizeCompletion_c5_amended (s : BotSession) (dep : Option UserDeposit)
    (hrun : s.status = .RUNNING) (hq : s.tradesExecuted < s.maxTrades)
    (hmin : s.remainingSol < 1/100) :
    startTradingChecks s dep = ({ s with status := .COMPLETED }, dep, .belowMinimum) := by
  unfold startTradingChecks
  rw [if_neg (by simp [hrun]), if_neg (not_le.mpr hq), if_pos hmin]

/-- C5 amended witness: the concrete below-minimum session completes with
its ledger entry untouched. -/
theorem minSizeCompletion_c5_amended_witness :
    startTradingChecks c5sess (some c5dep) =
      ({ c5sess with status := .COMPLETED }, some c5dep, .belowMinimum) :=
  minSizeCompletion_c5_amended c5sess (some c5dep) rfl (by norm_num [c5sess])
    (by norm_num [c5sess])

end AutoPrint
